import Mathlib

/-!
Verification of `lantz_core/feat.py`: the `Feat` / `DictFeat` attribute
descriptors, their configuration-driven pipeline rebuild algorithm, the
registry forking performed at binding time, and the per-instance proxies.

The embedding works over a small universe `PyObj` of Python-like values so
that truthiness tests (`if units:`), subscripting (`limits[0]`),
`isinstance(x, (list, tuple))` and iteration (`for l in limits`) are modelled
as in the source.  A Python exception (e.g. indexing a non-sequence) is
modelled by `Option`: `none` means the operation raised.

External collaborators that are not part of this repository's source
(`pimpmyclass` configuration storage, the `processors` transformation
primitives) are modelled from the specification's contracts; their doc
comments start with `Modelled from the spec:`.
-/

set_option autoImplicit false

/-- A small universe of Python-like values: `None`, integers, strings,
sequences (covering both `list` and `tuple`, encoded as cons-chains so that
equality stays derivable), opaque callables, opaque mappings/sets (the
`values` modifier), a callable with one bound argument
(`functools.partial(f, a)`), and an opaque reference to an owning driver
instance. -/
inductive PyObj where
  | none
  | int (n : Int)
  | str (s : String)
  | nilSeq
  | consSeq (hd tl : PyObj)
  | func (id : Nat)
  | dict (id : Nat)
  | bindArg (f : PyObj) (a : PyObj)
  | instanceRef (i : Nat)
deriving DecidableEq, Repr

/-- A Python sequence (list/tuple) with the given elements. -/
def PyObj.tuple : List PyObj → PyObj
  | [] => .nilSeq
  | x :: xs => .consSeq x (PyObj.tuple xs)

/-- Python truthiness for `PyObj`: `None` is falsy, `0` is falsy, the empty
string and the empty sequence are falsy; callables, mappings and instance
references are truthy.  (Opaque mappings model non-empty `values` mappings;
an unset or empty modifier is modelled as `PyObj.none`.) -/
def PyObj.truthy : PyObj → Bool
  | .none => false
  | .int n => n != 0
  | .str s => s ≠ ""
  | .nilSeq => false
  | .consSeq _ _ => true
  | .func _ => true
  | .dict _ => true
  | .bindArg _ _ => true
  | .instanceRef _ => true

/-- Iterating a `PyObj` (`for l in limits`, `MyRange(*l)`).  Sequences yield
their elements, strings yield their one-character strings; iterating any
other value raises `TypeError`, modelled by `none`.  (A `consSeq` whose tail
is not itself a sequence does not represent a Python value and also fails.) -/
def PyObj.elems : PyObj → Option (List PyObj)
  | .nilSeq => some []
  | .consSeq x xs => do pure (x :: (← xs.elems))
  | .str s => some (s.data.map fun c => PyObj.str (String.singleton c))
  | _ => Option.none

/-- Subscripting `x[0]`.  Defined for sequences and strings; fails (raises)
otherwise, and fails on an empty sequence (`IndexError`). -/
def PyObj.sub0 (o : PyObj) : Option PyObj := do
  let xs ← o.elems
  xs.head?

/-- `isinstance(x, (list, tuple))` over this universe. -/
def PyObj.isSeq : PyObj → Bool
  | .nilSeq => true
  | .consSeq _ _ => true
  | _ => false

/-- `callable(x)` over this universe. -/
def PyObj.callable : PyObj → Bool
  | .func _ => true
  | .bindArg _ _ => true
  | _ => false

/-- `MyRange(*args)` from `lantz_core.processors`: a numeric range built from
the positional arguments (start, stop, step).  Only its identity as a stage
argument matters for the rebuild algorithm; its membership semantics is
modelled from the spec below. -/
structure MyRange where
  args : List PyObj
deriving DecidableEq, Repr

/-- Modelled from the spec: membership in a `MyRange`.  The spec describes
`limits` as "a range (start, stop, step) for numerical values", inclusive at
both ends (`limits = (0, 10)`: setting `10` succeeds, `11` fails), with an
optional step constraining the value to the grid `start + k*step`. -/
def MyRange.contains : MyRange → PyObj → Bool
  | ⟨[PyObj.int a, PyObj.int b]⟩, PyObj.int v => a ≤ v && v ≤ b
  | ⟨[PyObj.int a, PyObj.int b, PyObj.int s]⟩, PyObj.int v =>
      a ≤ v && v ≤ b && (v - a) % s == 0
  | _, _ => false

/-- The argument handed to `range_checker`: either a single `MyRange`
(`range_checker(MyRange(*limits))`) or a sequence of them
(`range_checker(tuple(MyRange(*l) for l in limits))`). -/
inductive RangesArg where
  | one (r : MyRange)
  | many (rs : List MyRange)
deriving DecidableEq, Repr

/-- Modelled from the spec: the validation performed by the `range_checker`
stage from `lantz_core.processors`.  A single range accepts exactly its
members; a sequence of ranges accepts a candidate as soon as *any* one range
in the sequence contains it. -/
def RangesArg.accepts : RangesArg → PyObj → Bool
  | .one r, v => r.contains v
  | .many rs, v => rs.any fun r => r.contains v

/-- One stage of a read or write pipeline, identified by the constructor the
source appends in `Feat.rebuild`: `to_quantity_converter(units)`,
`to_magnitude_converter(units)`, `reverse_mapper_or_checker(values)`,
`mapper_or_checker(values)`, `range_checker(...)`, and `Processor(func)` for
an entry of `get_funcs`/`set_funcs`. -/
inductive Stage where
  | toQuantityConverter (units : PyObj)
  | toMagnitudeConverter (units : PyObj)
  | reverseMapperOrChecker (values : PyObj)
  | mapperOrChecker (values : PyObj)
  | rangeChecker (arg : RangesArg)
  | proc (f : PyObj)
deriving DecidableEq, Repr

/-- Whether a stage is a `range_checker` stage. -/
def Stage.isRangeChecker : Stage → Bool
  | .rangeChecker _ => true
  | _ => false

/-- The `if limits:` block of `Feat.rebuild` (feat.py lines 143-147): when
`limits` is truthy, inspect `limits[0]`; if it is a list or tuple, build one
`range_checker` stage over `MyRange(*l)` for each `l` in `limits`, otherwise
build one `range_checker` stage over the single `MyRange(*limits)`. -/
def limitsStages (limits : PyObj) : Option (List Stage) :=
  if limits.truthy then do
    let first ← limits.sub0
    if first.isSeq then do
      let ls ← limits.elems
      let rs ← ls.mapM fun l => (l.elems).map MyRange.mk
      pure [Stage.rangeChecker (RangesArg.many rs)]
    else do
      let args ← limits.elems
      pure [Stage.rangeChecker (RangesArg.one (MyRange.mk args))]
  else pure []

/-- The `if get_funcs:`/`if set_funcs:` loops of `Feat.rebuild` (feat.py
lines 149-157): when truthy, iterate and append `Processor(func)` for every
entry that is not `None`. -/
def funcStages (funcs : PyObj) : Option (List Stage) :=
  if funcs.truthy then do
    let fs ← funcs.elems
    pure (fs.filterMap fun f =>
      if f = PyObj.none then Option.none else some (Stage.proc f))
  else pure []

/-- The body of `Feat.rebuild` (feat.py lines 134-157) up to, but not
including, the final storing of the pipelines: starting from two empty
`Processor()` sequences, append the units stages, the values stages, the
limits stage (write side only) and the extra `get_funcs`/`set_funcs` stages,
in source order.  Returns `(get_processors, set_processors)` in construction
order; `none` models an exception raised while processing a modifier. -/
def Feat.rebuildPipelines (values units limits get_funcs set_funcs : PyObj) :
    Option (List Stage × List Stage) := do
  let get_processors : List Stage := []
  let set_processors : List Stage := []
  let get_processors :=
    if units.truthy then get_processors ++ [Stage.toQuantityConverter units]
    else get_processors
  let set_processors :=
    if units.truthy then set_processors ++ [Stage.toMagnitudeConverter units]
    else set_processors
  let get_processors :=
    if values.truthy then get_processors ++ [Stage.reverseMapperOrChecker values]
    else get_processors
  let set_processors :=
    if values.truthy then set_processors ++ [Stage.mapperOrChecker values]
    else set_processors
  let set_processors := set_processors ++ (← limitsStages limits)
  let get_processors := get_processors ++ (← funcStages get_funcs)
  let set_processors := set_processors ++ (← funcStages set_funcs)
  pure (get_processors, set_processors)

/-!  Specification-side restatement of the build order (§4.1 of the spec),
written as a declarative concatenation of independent blocks, to be compared
with the sequential construction above. -/

/-- Spec §4.1 step 1, read side: a unit-normalizing stage when `units` is set. -/
def specUnitsRead (units : PyObj) : List Stage :=
  if units.truthy then [Stage.toQuantityConverter units] else []

/-- Spec §4.1 step 1, write side: a unit-denormalizing stage when `units` is set. -/
def specUnitsWrite (units : PyObj) : List Stage :=
  if units.truthy then [Stage.toMagnitudeConverter units] else []

/-- Spec §4.1 step 2, read side: a reverse-mapping stage when `values` is set. -/
def specValuesRead (values : PyObj) : List Stage :=
  if values.truthy then [Stage.reverseMapperOrChecker values] else []

/-- Spec §4.1 step 2, write side: a forward-mapping stage when `values` is set. -/
def specValuesWrite (values : PyObj) : List Stage :=
  if values.truthy then [Stage.mapperOrChecker values] else []

/-- Spec §4.1 step 4: the non-null extra functions, in the order supplied,
null entries skipped. -/
def specExtraFuncs : List PyObj → List Stage
  | [] => []
  | PyObj.none :: rest => specExtraFuncs rest
  | f :: rest => Stage.proc f :: specExtraFuncs rest

/-!  Scoped configuration storage.  A scope is `Option Nat`: `Option.none`
is the class-level scope (`instance=None` in the source) and `some i` is the
override scope of driver instance `i`. -/

/-- Modelled from the spec: the per-key storage behind a `pimpmyclass`
`Config` descriptor — a class-level default plus per-instance overrides
(spec §3 "Modifier Store").  `iget` at an instance scope falls back to the
class-level value when no override exists; `iset` writes at the given
scope. -/
structure ScopedStore (α : Type) where
  classVal : α
  instVal : Nat → Option α

/-- Read a scoped store at a scope, instance overrides falling back to the
class-level value. -/
def ScopedStore.iget {α : Type} (s : ScopedStore α) : Option Nat → α
  | Option.none => s.classVal
  | some i => (s.instVal i).getD s.classVal

/-- Write a scoped store at a scope. -/
def ScopedStore.iset {α : Type} (s : ScopedStore α) (sc : Option Nat) (v : α) :
    ScopedStore α :=
  match sc with
  | Option.none => { s with classVal := v }
  | some i => { s with instVal := fun j => if j = i then some v else s.instVal j }

/-- The five modifier keys recognized by `on_config_set`
(feat.py lines 122 and 219). -/
def featModifierKeys : List String :=
  ["values", "units", "limits", "get_funcs", "set_funcs"]

/-- Modelled from the spec: `_config_keys` — the set of configuration keys a
proxy accepts, i.e. the recognized Modifier Set keys (spec §3, §4.3). -/
def featConfigKeys : List String := featModifierKeys

/-- The state of one `Feat` descriptor: the raw accessors, the scoped
configuration store of its modifiers (any key outside the five modifier keys
holds `PyObj.none`), and the scoped storage for the built pipelines
(`post_get` read side, `pre_set` write side); `Option.none` pipelines mean
no pipeline has been stored for that scope. -/
structure FeatState where
  fget : PyObj
  fset : PyObj
  config : String → ScopedStore PyObj
  post_get : ScopedStore (Option (List Stage))
  pre_set : ScopedStore (Option (List Stage))

/-- `Feat.rebuild` (feat.py lines 127-160): read the five modifiers at the
given scope, build the two stage sequences, then store the *reversed* read
sequence in `post_get` and the write sequence in `pre_set` at that scope.
`none` models an exception raised while building (nothing is stored in that
case, since the source stores only after both sequences are built). -/
def FeatState.rebuild (f : FeatState) (instance_ : Option Nat) : Option FeatState := do
  let values := (f.config "values").iget instance_
  let units := (f.config "units").iget instance_
  let limits := (f.config "limits").iget instance_
  let get_funcs := (f.config "get_funcs").iget instance_
  let set_funcs := (f.config "set_funcs").iget instance_
  let (get_processors, set_processors) ←
    Feat.rebuildPipelines values units limits get_funcs set_funcs
  pure { f with
    post_get := f.post_get.iset instance_ (some get_processors.reverse),
    pre_set := f.pre_set.iset instance_ (some set_processors) }

/-- `Feat.on_config_set` (feat.py lines 110-125): after the store has been
updated, rebuild the pipelines for the affected scope — but only when the
key is one of the five recognized modifiers. -/
def FeatState.on_config_set (f : FeatState) (instance_ : Option Nat) (key : String)
    (_value : PyObj) : Option FeatState :=
  if key ∈ featModifierKeys then f.rebuild instance_ else some f

/-- Modelled from the spec: `config_set` from `pimpmyclass` — store the
value at the given scope, then invoke the descriptor's `on_config_set`
handler with that scope (spec §4.1 `on_modifier_changed`). -/
def FeatState.config_set (f : FeatState) (instance_ : Option Nat) (key : String)
    (value : PyObj) : Option FeatState :=
  let f' := { f with
    config := fun k => if k = key then (f.config k).iset instance_ value else f.config k }
  f'.on_config_set instance_ key value

/-- Modelled from the spec: `config_get` from `pimpmyclass` — read the value
at the given scope, instance overrides falling back to the class default. -/
def FeatState.config_get (f : FeatState) (instance_ : Option Nat) (key : String) : PyObj :=
  (f.config key).iget instance_

/-- A `Feat` whose modifiers are all unset and whose pipelines have not been
built, with the given raw accessors. -/
def FeatState.fresh (fget fset : PyObj) : FeatState where
  fget := fget
  fset := fset
  config := fun _ => ⟨PyObj.none, fun _ => Option.none⟩
  post_get := ⟨Option.none, fun _ => Option.none⟩
  pre_set := ⟨Option.none, fun _ => Option.none⟩

/-- Modelled from the spec: constructing `Feat(fget=..., fset=..., **mods)`
(as `DictFeat.build_subproperty` does) stores each supplied modifier at the
new descriptor's class-level scope and establishes the class-level pipelines
(spec §2: the indexed variant lazily materializes "one pipeline instance per
key"; §4.2: the sub-descriptor clones the current Modifier Set). -/
def featInit (fget fset : PyObj) (mods : String → PyObj) : Option FeatState :=
  let f : FeatState := { FeatState.fresh fget fset with
    config := fun k =>
      ⟨if k ∈ featModifierKeys then mods k else PyObj.none, fun _ => Option.none⟩ }
  f.rebuild Option.none

/-!  The indexed descriptor `DictFeat`.  Materialized sub-descriptors live in
a heap `Nat → FeatState`; the descriptor's `_subproperties` maps a
`(owning instance scope, key)` pair (spec §3) to the heap id of its
sub-descriptor. -/

/-- The state of one `DictFeat` descriptor: the indexed raw accessors, the
scoped configuration store of its modifiers (the shared template), and the
map of already-materialized sub-descriptors.  `DictFeat` has no pipeline
storage of its own (its bases carry no transform capability). -/
structure DictFeatState where
  fget : PyObj
  fset : PyObj
  config : String → ScopedStore PyObj
  subproperties : List ((Option Nat × PyObj) × Nat)

/-- The loop of `DictFeat.on_config_set` (feat.py lines 222-223):
`for _, subprop in self._subproperties.items(): setattr(subprop, key, value)`.
Plain attribute assignment on a sub-descriptor stores the value at the
sub-descriptor's class-level scope and fires its `on_config_set` there, i.e.
it is `config_set` at scope `Option.none`.  A failure while rebuilding one
sub-descriptor aborts the loop (the source raises). -/
def propagateToSubs (subs : List ((Option Nat × PyObj) × Nat)) (key : String)
    (value : PyObj) (feats : Nat → FeatState) : Option (Nat → FeatState) :=
  match subs with
  | [] => some feats
  | e :: rest =>
    match (feats e.2).config_set Option.none key value with
    | some f => propagateToSubs rest key value (Function.update feats e.2 f)
    | Option.none => Option.none

/-- `DictFeat.on_config_set` (feat.py lines 207-223): for a recognized
modifier key, assign the new value to every already-materialized
sub-descriptor; the scope (`instance`) on which the change was made is not
consulted by the loop. -/
def DictFeatState.on_config_set (d : DictFeatState) (feats : Nat → FeatState)
    (_instance : Option Nat) (key : String) (value : PyObj) : Option (Nat → FeatState) :=
  if key ∈ featModifierKeys then propagateToSubs d.subproperties key value feats
  else some feats

/-- The template update performed by a configuration write on a `DictFeat`:
the value is stored at the written scope of the written key. -/
def DictFeatState.withConfig (d : DictFeatState) (sc : Option Nat) (key : String)
    (v : PyObj) : DictFeatState :=
  { d with
    config := fun k => if k = key then (d.config k).iset sc v else d.config k }

/-- Modelled from the spec: `config_set` from `pimpmyclass` on a `DictFeat`
— store the value at the given scope of the shared template, then invoke
`DictFeat.on_config_set` with that scope. -/
def DictFeatState.config_set (d : DictFeatState) (feats : Nat → FeatState)
    (instance_ : Option Nat) (key : String) (value : PyObj) :
    Option (DictFeatState × (Nat → FeatState)) :=
  match (d.withConfig instance_ key value).on_config_set feats instance_ key value with
  | some feats' => some (d.withConfig instance_ key value, feats')
  | Option.none => Option.none

/-- Modelled from the spec: `config_get` from `pimpmyclass` on a `DictFeat`. -/
def DictFeatState.config_get (d : DictFeatState) (instance_ : Option Nat)
    (key : String) : PyObj :=
  (d.config key).iget instance_

/-- `DictFeat.build_subproperty` (feat.py lines 199-205): a fresh `Feat`
built from the supplied accessors and the current configuration of the
indexed descriptor at the given scope
(`Feat(fget=fget, fset=fset, **dict(self.config_iter(instance)))`). -/
def DictFeatState.build_subproperty (d : DictFeatState) (_key : PyObj)
    (fget fset : PyObj) (instance_ : Option Nat) : Option FeatState :=
  featInit fget fset (fun k => (d.config k).iget instance_)

/-- Lookup in the sub-descriptor map. -/
def lookupSub (subs : List ((Option Nat × PyObj) × Nat)) (instance_ : Option Nat)
    (key : PyObj) : Option Nat :=
  match subs with
  | [] => Option.none
  | e :: rest => if e.1 = (instance_, key) then some e.2 else lookupSub rest instance_ key

/-- Modelled from the spec: `subproperty(instance, key)` from `pimpmyclass`
`DictObservableProperty` — return the cached sub-descriptor for
`(instance, key)`, or materialize one on first access via
`build_subproperty`, handing it the raw accessors with `key` bound as first
argument (spec §4.2).  Returns the updated descriptor, heap and next free
heap id together with the sub-descriptor's heap id. -/
def DictFeatState.subproperty (d : DictFeatState) (feats : Nat → FeatState)
    (nextFeat : Nat) (instance_ : Option Nat) (key : PyObj) :
    Option (DictFeatState × (Nat → FeatState) × Nat × Nat) :=
  match lookupSub d.subproperties instance_ key with
  | some fid => some (d, feats, nextFeat, fid)
  | Option.none =>
    match d.build_subproperty key (PyObj.bindArg d.fget key) (PyObj.bindArg d.fset key)
        instance_ with
    | some f =>
      some ({ d with subproperties := d.subproperties ++ [((instance_, key), nextFeat)] },
            Function.update feats nextFeat f, nextFeat + 1, nextFeat)
    | Option.none => Option.none

/-!  Binding a descriptor to its owning type (`__set_name__`) and the class
registry (`_lantz_feats` / `_lantz_dictfeats`).  Registries are shared
mutable dictionaries, so they live in a heap `Nat → Registry`; a class holds
the heap id of its registry, a subclass initially holding its parent's id
(Python attribute inheritance). -/

/-- A class registry: the `__lantz_driver_cls__` tag (read with `getattr`
defaulting to `None`) and the name → descriptor-id entries. -/
structure Registry where
  driverCls : Option String
  entries : List (String × Nat)
deriving DecidableEq, Repr

/-- Python `dict` assignment `d[name] = v`: replace an existing entry in
place, otherwise append. -/
def assocSet (l : List (String × Nat)) (k : String) (v : Nat) : List (String × Nat) :=
  if l.any (fun p => p.1 = k) then l.map (fun p => if p.1 = k then (k, v) else p)
  else l ++ [(k, v)]

/-- Python `dict` lookup `d.get(name)`. -/
def assocLookup (l : List (String × Nat)) (k : String) : Option Nat :=
  match l with
  | [] => Option.none
  | p :: rest => if p.1 = k then some p.2 else assocLookup rest k

/-- The heaps shared by descriptor binding: the registries, the next free
registry id, and the `Feat` heap (sub-descriptors and bound descriptors). -/
structure World where
  regs : Nat → Registry
  nextReg : Nat
  feats : Nat → FeatState
  dictfeats : Nat → DictFeatState

/-- `Feat.__set_name__` (feat.py lines 85-105): read the owner's registry;
if its tag is not the owner's qualified name, replace it with a fresh copy
tagged with the owner's qualified name (`d.__class__(**d)`); register the
descriptor under `name`; finally `self.rebuild()` at the class-level scope.
Returns the updated world and the owner's (possibly new) registry id;
`none` models an exception raised by the rebuild. -/
def featSetName (w : World) (ownerQualname : String) (ownerRegId : Nat)
    (name : String) (selfId : Nat) : Option (World × Nat) :=
  let d := w.regs ownerRegId
  let fork :=
    if d.driverCls ≠ some ownerQualname then
      ({ w with
          regs := Function.update w.regs w.nextReg
            { driverCls := some ownerQualname, entries := d.entries },
          nextReg := w.nextReg + 1 }, w.nextReg)
    else (w, ownerRegId)
  let w1 := fork.1
  let rid := fork.2
  let d1 := w1.regs rid
  let w2 := { w1 with
    regs := Function.update w1.regs rid
      { d1 with entries := assocSet d1.entries name selfId } }
  match (w2.feats selfId).rebuild Option.none with
  | some f => some ({ w2 with feats := Function.update w2.feats selfId f }, rid)
  | Option.none => Option.none

/-- `DictFeat.__set_name__` (feat.py lines 185-197): identical registry
forking and registration on `_lantz_dictfeats`, but with no rebuild — the
operation is total and touches no descriptor state. -/
def dictFeatSetName (w : World) (ownerQualname : String) (ownerRegId : Nat)
    (name : String) (selfId : Nat) : World × Nat :=
  let d := w.regs ownerRegId
  let fork :=
    if d.driverCls ≠ some ownerQualname then
      ({ w with
          regs := Function.update w.regs w.nextReg
            { driverCls := some ownerQualname, entries := d.entries },
          nextReg := w.nextReg + 1 }, w.nextReg)
    else (w, ownerRegId)
  let w1 := fork.1
  let rid := fork.2
  let d1 := w1.regs rid
  ({ w1 with
      regs := Function.update w1.regs rid
        { d1 with entries := assocSet d1.entries name selfId } }, rid)

/-!  The per-instance proxies (`FeatProxy`, `DictFeatProxy`).  A proxy holds
only the owning instance id and a reference to the proxied descriptor; its
operations are modelled as functions of the descriptor state.  The member
table `members : String → Option PyObj` models which further names the
descriptor exposes (`hasattr`/`getattr` on methods and plain attributes). -/

/-- The two proxy failure kinds: writing an unrecognized modifier name, and
reading a name the descriptor does not expose (both raised as
`AttributeError` in the source; the spec names them `InvalidModifierError`
and `AttributeNotFoundError`). -/
inductive ProxyErr where
  | invalidModifier
  | attributeNotFound
deriving DecidableEq, Repr

/-- `FeatProxy.__getattr__` (feat.py lines 239-251): a recognized
configuration key is answered from the scoped configuration store; otherwise
a member exposed by the descriptor is returned, callables partially applied
to the owning instance; otherwise the read fails. -/
def featProxyGetattr (f : FeatState) (members : String → Option PyObj)
    (instance_ : Nat) (item : String) : Except ProxyErr PyObj :=
  if item ∈ featConfigKeys then
    Except.ok (f.config_get (some instance_) item)
  else
    match members item with
    | some out =>
      if out.callable then Except.ok (PyObj.bindArg out (PyObj.instanceRef instance_))
      else Except.ok out
    | Option.none => Except.error ProxyErr.attributeNotFound

/-- `FeatProxy.__setattr__` (feat.py lines 253-259): fails unless the name
is a recognized configuration key, and otherwise stores through `config_set`
at the owning instance's scope.  In the failure case no descriptor state is
produced; in the success case the inner `Option` is the outcome of the
triggered rebuild. -/
def featProxySetattr (f : FeatState) (instance_ : Nat) (item : String)
    (value : PyObj) : Except ProxyErr (Option FeatState) :=
  if item ∉ featConfigKeys then Except.error ProxyErr.invalidModifier
  else Except.ok (f.config_set (some instance_) item value)

/-- `DictFeatProxy.__getattr__` (feat.py lines 275-287): same dispatch as
`FeatProxy.__getattr__`, over the indexed descriptor. -/
def dictFeatProxyGetattr (d : DictFeatState) (members : String → Option PyObj)
    (instance_ : Nat) (item : String) : Except ProxyErr PyObj :=
  if item ∈ featConfigKeys then
    Except.ok (d.config_get (some instance_) item)
  else
    match members item with
    | some out =>
      if out.callable then Except.ok (PyObj.bindArg out (PyObj.instanceRef instance_))
      else Except.ok out
    | Option.none => Except.error ProxyErr.attributeNotFound

/-- `DictFeatProxy.__setattr__` (feat.py lines 289-295): fails unless the
name is a recognized configuration key, and otherwise stores through
`config_set` at the owning instance's scope (which also propagates to the
materialized sub-descriptors in the heap). -/
def dictFeatProxySetattr (d : DictFeatState) (feats : Nat → FeatState)
    (instance_ : Nat) (item : String) (value : PyObj) :
    Except ProxyErr (Option (DictFeatState × (Nat → FeatState))) :=
  if item ∉ featConfigKeys then Except.error ProxyErr.invalidModifier
  else Except.ok (d.config_set feats (some instance_) item value)

/-- `DictFeatProxy.__getitem__` (feat.py lines 297-298): a `FeatProxy` over
the materialized sub-descriptor for the owning instance and the key; here,
the heap id of that sub-descriptor together with the updated state. -/
def dictFeatProxyGetitem (d : DictFeatState) (feats : Nat → FeatState)
    (nextFeat : Nat) (instance_ : Nat) (item : PyObj) :
    Option (DictFeatState × (Nat → FeatState) × Nat × Nat) :=
  d.subproperty feats nextFeat (some instance_) item

/-- A sample `Feat` for the witnesses: class-level `units` of `"V"`, and
instance `7` overriding `limits` with `(0, 10)`. -/
def sampleFeat : FeatState :=
  { FeatState.fresh (PyObj.func 0) (PyObj.func 1) with
    config := fun k =>
      if k = "units" then ⟨PyObj.str "V", fun _ => Option.none⟩
      else if k = "limits" then
        ⟨PyObj.none, fun i =>
          if i = 7 then some (PyObj.tuple [PyObj.int 0, PyObj.int 10]) else Option.none⟩
      else ⟨PyObj.none, fun _ => Option.none⟩ }

/-- The effect of `setattr(subprop, key, value)` on a materialized
sub-descriptor: the key now holds `value` at the sub-descriptor's own
class-level scope, no other key changed, the accessors are untouched, and
(for a recognized modifier) the class-level pipelines were rebuilt from the
sub-descriptor's updated configuration. -/
def ProcessedP (key : String) (v : PyObj) (f0 f1 : FeatState) : Prop :=
  (f1.config key).classVal = v ∧
  (∀ k, k ≠ key → f1.config k = f0.config k) ∧
  f1.fget = f0.fget ∧ f1.fset = f0.fset ∧
  (key ∈ featModifierKeys →
    ∃ gp sp,
      Feat.rebuildPipelines ((f1.config "values").iget Option.none)
          ((f1.config "units").iget Option.none) ((f1.config "limits").iget Option.none)
          ((f1.config "get_funcs").iget Option.none)
          ((f1.config "set_funcs").iget Option.none) = some (gp, sp) ∧
      f1.post_get.iget Option.none = some gp.reverse ∧
      f1.pre_set.iget Option.none = some sp)

/-- A `DictFeat` with two materialized sub-descriptors belonging to two
different owning instances (instance 0 and instance 1), used to exercise the
propagation loop. -/
def dfSample : DictFeatState where
  fget := PyObj.func 10
  fset := PyObj.func 11
  config := fun _ => ⟨PyObj.none, fun _ => Option.none⟩
  subproperties := [((some 0, PyObj.int 1), 0), ((some 1, PyObj.int 1), 1)]

/-- The heap of materialized sub-descriptors behind `dfSample`. -/
def featsSample : Nat → FeatState := fun _ => FeatState.fresh (PyObj.func 0) (PyObj.func 1)

/-- A world with a parent class `"Parent"` owning registry 0 in which the
attribute `"x"` is bound to descriptor 0. -/
def sampleWorld : World where
  regs := fun i =>
    if i = 0 then { driverCls := some "Parent", entries := [("x", 0)] }
    else { driverCls := Option.none, entries := [] }
  nextReg := 1
  feats := fun _ => FeatState.fresh (PyObj.func 0) (PyObj.func 1)
  dictfeats := fun _ => dfSample

example : Feat.rebuildPipelines PyObj.none PyObj.none PyObj.none PyObj.none PyObj.none
    = some ([], []) := by decide

example : Feat.rebuildPipelines (PyObj.dict 0) (PyObj.str "V")
      (PyObj.tuple [PyObj.int 0, PyObj.int 10])
      (PyObj.tuple [PyObj.func 3, PyObj.none, PyObj.func 4]) PyObj.none
    = some ([Stage.toQuantityConverter (PyObj.str "V"),
             Stage.reverseMapperOrChecker (PyObj.dict 0),
             Stage.proc (PyObj.func 3), Stage.proc (PyObj.func 4)],
            [Stage.toMagnitudeConverter (PyObj.str "V"),
             Stage.mapperOrChecker (PyObj.dict 0),
             Stage.rangeChecker (RangesArg.one ⟨[PyObj.int 0, PyObj.int 10]⟩)]) := by
  decide

example : limitsStages (PyObj.tuple [PyObj.tuple [PyObj.int 0, PyObj.int 5],
      PyObj.tuple [PyObj.int 10, PyObj.int 20]])
    = some [Stage.rangeChecker (RangesArg.many
        [⟨[PyObj.int 0, PyObj.int 5]⟩, ⟨[PyObj.int 10, PyObj.int 20]⟩])] := by
  decide

theorem ScopedStore.iget_iset {α : Type} (s : ScopedStore α) (sc : Option Nat) (v : α) :
    (s.iset sc v).iget sc = v := by
  cases sc <;> simp [iget, iset]

theorem ScopedStore.iset_classVal_some {α : Type} (s : ScopedStore α) (i : Nat) (v : α) :
    (s.iset (some i) v).classVal = s.classVal := rfl

theorem ScopedStore.iset_none_classVal {α : Type} (s : ScopedStore α) (v : α) :
    (s.iset Option.none v).classVal = v := rfl

theorem ScopedStore.iset_none_instVal {α : Type} (s : ScopedStore α) (v : α) :
    (s.iset Option.none v).instVal = s.instVal := rfl

/-!  Helper lemmas. -/

theorem filterMap_eq_specExtraFuncs (fs : List PyObj) :
    fs.filterMap (fun f =>
      if f = PyObj.none then Option.none else some (Stage.proc f)) = specExtraFuncs fs := by
  induction fs with
  | nil => rfl
  | cons f rest ih =>
    cases hf : decide (f = PyObj.none) with
    | true =>
      have : f = PyObj.none := of_decide_eq_true hf
      subst this
      simp [List.filterMap, specExtraFuncs, ih]
    | false =>
      have hne : f ≠ PyObj.none := of_decide_eq_false hf
      cases f <;> simp_all [List.filterMap, specExtraFuncs]

theorem funcStages_eq_specExtraFuncs (funcs : PyObj) (fs : List PyObj) (l : List Stage)
    (he : funcs.elems = some fs) (h : funcStages funcs = some l) : l = specExtraFuncs fs := by
  by_cases ht : funcs.truthy
  · rw [funcStages, if_pos ht, he] at h
    simp only [Option.bind_eq_bind, Option.some_bind, pure, Option.some.injEq] at h
    subst h
    exact filterMap_eq_specExtraFuncs fs
  · rw [funcStages, if_neg ht] at h
    have hfs : fs = [] := by
      cases funcs <;> simp_all [PyObj.truthy, PyObj.elems]
    subst hfs
    simp only [pure, Option.some.injEq] at h
    subst h
    rfl

/-- Decomposing a successful `Feat.rebuildPipelines` into its blocks. -/
theorem rebuildPipelines_some (values units limits get_funcs set_funcs : PyObj)
    (gp sp : List Stage)
    (h : Feat.rebuildPipelines values units limits get_funcs set_funcs = some (gp, sp)) :
    ∃ ls gfs sfs,
      limitsStages limits = some ls ∧
      funcStages get_funcs = some gfs ∧
      funcStages set_funcs = some sfs ∧
      gp = (if units.truthy then [Stage.toQuantityConverter units] else []) ++
           (if values.truthy then [Stage.reverseMapperOrChecker values] else []) ++ gfs ∧
      sp = (if units.truthy then [Stage.toMagnitudeConverter units] else []) ++
           (if values.truthy then [Stage.mapperOrChecker values] else []) ++ ls ++ sfs := by
  cases hls : limitsStages limits with
  | none => rw [Feat.rebuildPipelines] at h; simp [hls] at h
  | some ls =>
    cases hgf : funcStages get_funcs with
    | none => rw [Feat.rebuildPipelines] at h; simp [hls, hgf] at h
    | some gfs =>
      cases hsf : funcStages set_funcs with
      | none => rw [Feat.rebuildPipelines] at h; simp [hls, hgf, hsf] at h
      | some sfs =>
        rw [Feat.rebuildPipelines] at h
        simp only [hls, hgf, hsf, Option.bind_eq_bind, Option.some_bind, pure,
          Option.some.injEq, Prod.mk.injEq] at h
        obtain ⟨h1, h2⟩ := h
        subst h1
        subst h2
        refine ⟨ls, gfs, sfs, rfl, rfl, rfl, ?_, ?_⟩
        · cases hu : units.truthy <;> cases hv : values.truthy <;> simp [hu, hv]
        · cases hu : units.truthy <;> cases hv : values.truthy <;> simp [hu, hv]

/-- C1: For every Modifier Set, `Feat.rebuild` constructs the read and write
pipelines in this fixed order: if `units` is set, a unit-normalizing stage is
appended to the read pipeline and a unit-denormalizing stage to the write
pipeline; then, if `values` is set, a reverse-mapping stage is appended to the
read pipeline and a forward-mapping stage to the write pipeline; then the
limits stage (write side only); finally every non-null entry of `get_funcs`
is appended to the read pipeline and every non-null entry of `set_funcs` to
the write pipeline, in the order supplied, with null entries skipped. -/
theorem feat_rebuild_build_order (values units limits get_funcs set_funcs : PyObj)
    (gp sp : List Stage)
    (h : Feat.rebuildPipelines values units limits get_funcs set_funcs = some (gp, sp)) :
    ∃ limitStage getExtra setExtra,
      limitsStages limits = some limitStage ∧
      funcStages get_funcs = some getExtra ∧
      funcStages set_funcs = some setExtra ∧
      (∀ fs, get_funcs.elems = some fs → getExtra = specExtraFuncs fs) ∧
      (∀ fs, set_funcs.elems = some fs → setExtra = specExtraFuncs fs) ∧
      gp = specUnitsRead units ++ specValuesRead values ++ getExtra ∧
      sp = specUnitsWrite units ++ specValuesWrite values ++ limitStage ++ setExtra := by
  obtain ⟨ls, gfs, sfs, hls, hgf, hsf, hgp, hsp⟩ :=
    rebuildPipelines_some values units limits get_funcs set_funcs gp sp h
  exact ⟨ls, gfs, sfs, hls, hgf, hsf,
    fun fs he => funcStages_eq_specExtraFuncs _ _ _ he hgf,
    fun fs he => funcStages_eq_specExtraFuncs _ _ _ he hsf,
    by rw [hgp]; rfl, by rw [hsp]; rfl⟩

/-- Witness for C1 at a concrete Modifier Set with every kind of modifier
set and a null entry among `get_funcs`. -/
theorem feat_rebuild_build_order_witness :
    Feat.rebuildPipelines (PyObj.dict 0) (PyObj.str "V")
        (PyObj.tuple [PyObj.int 0, PyObj.int 10])
        (PyObj.tuple [PyObj.func 3, PyObj.none, PyObj.func 4]) PyObj.none =
      some ([Stage.toQuantityConverter (PyObj.str "V"),
             Stage.reverseMapperOrChecker (PyObj.dict 0),
             Stage.proc (PyObj.func 3), Stage.proc (PyObj.func 4)],
            [Stage.toMagnitudeConverter (PyObj.str "V"),
             Stage.mapperOrChecker (PyObj.dict 0),
             Stage.rangeChecker (RangesArg.one ⟨[PyObj.int 0, PyObj.int 10]⟩)]) ∧
    (∃ limitStage getExtra setExtra,
      limitsStages (PyObj.tuple [PyObj.int 0, PyObj.int 10]) = some limitStage ∧
      funcStages (PyObj.tuple [PyObj.func 3, PyObj.none, PyObj.func 4]) = some getExtra ∧
      funcStages PyObj.none = some setExtra ∧
      (∀ fs, (PyObj.tuple [PyObj.func 3, PyObj.none, PyObj.func 4]).elems = some fs →
         getExtra = specExtraFuncs fs) ∧
      (∀ fs, PyObj.none.elems = some fs → setExtra = specExtraFuncs fs) ∧
      [Stage.toQuantityConverter (PyObj.str "V"),
       Stage.reverseMapperOrChecker (PyObj.dict 0),
       Stage.proc (PyObj.func 3), Stage.proc (PyObj.func 4)] =
        specUnitsRead (PyObj.str "V") ++ specValuesRead (PyObj.dict 0) ++ getExtra ∧
      [Stage.toMagnitudeConverter (PyObj.str "V"),
       Stage.mapperOrChecker (PyObj.dict 0),
       Stage.rangeChecker (RangesArg.one ⟨[PyObj.int 0, PyObj.int 10]⟩)] =
        specUnitsWrite (PyObj.str "V") ++ specValuesWrite (PyObj.dict 0) ++
          limitStage ++ setExtra) :=
  ⟨by decide, feat_rebuild_build_order _ _ _ _ _ _ _ (by decide)⟩

/-- C2: After any rebuild, the stored read pipeline (`post_get`) is the
constructed stage sequence in reverse construction order, while the stored
write pipeline (`pre_set`) is the constructed stage sequence in forward
construction order, at the scope that was rebuilt. -/
theorem feat_rebuild_stores_reversed (f : FeatState) (sc : Option Nat)
    (gp sp : List Stage)
    (h : Feat.rebuildPipelines ((f.config "values").iget sc) ((f.config "units").iget sc)
          ((f.config "limits").iget sc) ((f.config "get_funcs").iget sc)
          ((f.config "set_funcs").iget sc) = some (gp, sp)) :
    ∃ f', f.rebuild sc = some f' ∧
      f'.post_get.iget sc = some gp.reverse ∧
      f'.pre_set.iget sc = some sp := by
  refine ⟨{ f with
      post_get := f.post_get.iset sc (some gp.reverse),
      pre_set := f.pre_set.iset sc (some sp) }, ?_, ?_, ?_⟩
  · rw [FeatState.rebuild]
    simp only [h, Option.bind_eq_bind, Option.some_bind]
    rfl
  · exact ScopedStore.iget_iset _ _ _
  · exact ScopedStore.iget_iset _ _ _

/-- Witness for C2: rebuilding `sampleFeat` at instance 7's scope stores the
read stages reversed and the write stages forward. -/
theorem feat_rebuild_stores_reversed_witness :
    Feat.rebuildPipelines ((sampleFeat.config "values").iget (some 7))
        ((sampleFeat.config "units").iget (some 7))
        ((sampleFeat.config "limits").iget (some 7))
        ((sampleFeat.config "get_funcs").iget (some 7))
        ((sampleFeat.config "set_funcs").iget (some 7)) =
      some ([Stage.toQuantityConverter (PyObj.str "V")],
            [Stage.toMagnitudeConverter (PyObj.str "V"),
             Stage.rangeChecker (RangesArg.one ⟨[PyObj.int 0, PyObj.int 10]⟩)]) ∧
    (∃ f', sampleFeat.rebuild (some 7) = some f' ∧
      f'.post_get.iget (some 7) =
        some [Stage.toQuantityConverter (PyObj.str "V")].reverse ∧
      f'.pre_set.iget (some 7) =
        some [Stage.toMagnitudeConverter (PyObj.str "V"),
              Stage.rangeChecker (RangesArg.one ⟨[PyObj.int 0, PyObj.int 10]⟩)]) :=
  ⟨by decide, feat_rebuild_stores_reversed _ _ _ _ (by decide)⟩

/-- Every stage produced from `get_funcs`/`set_funcs` is a `Processor(func)`
stage. -/
theorem funcStages_all_proc (funcs : PyObj) (l : List Stage)
    (h : funcStages funcs = some l) : ∀ st ∈ l, ∃ f, st = Stage.proc f := by
  intro st hst
  by_cases ht : funcs.truthy
  · rw [funcStages, if_pos ht] at h
    cases he : funcs.elems with
    | none => rw [he] at h; simp at h
    | some fs =>
      rw [he] at h
      simp only [Option.bind_eq_bind, Option.some_bind, pure, Option.some.injEq] at h
      subst h
      obtain ⟨a, _, ha⟩ := List.mem_filterMap.mp hst
      by_cases hn : a = PyObj.none
      · rw [if_pos hn] at ha; cases ha
      · rw [if_neg hn] at ha
        exact ⟨a, (Option.some.injEq _ _).mp ha |>.symm⟩
  · rw [funcStages, if_neg ht] at h
    simp only [pure, Option.some.injEq] at h
    subst h
    cases hst

/-- A successful `limits[0]` means `limits` was truthy. -/
theorem sub0_some_truthy (o x : PyObj) (h : o.sub0 = some x) : o.truthy = true := by
  cases o with
  | str s =>
    by_cases hs : s = ""
    · subst hs
      rw [show PyObj.sub0 (PyObj.str "") = Option.none from rfl] at h
      cases h
    · simp [PyObj.truthy, hs]
  | consSeq a b => rfl
  | nilSeq => simp [PyObj.sub0, PyObj.elems] at h
  | none => simp [PyObj.sub0, PyObj.elems] at h
  | int n => simp [PyObj.sub0, PyObj.elems] at h
  | func i => simp [PyObj.sub0, PyObj.elems] at h
  | dict i => simp [PyObj.sub0, PyObj.elems] at h
  | bindArg f a => simp [PyObj.sub0, PyObj.elems] at h
  | instanceRef i => simp [PyObj.sub0, PyObj.elems] at h

/-- Characterizing the limits block in the sequence-of-ranges case. -/
theorem limitsStages_many (limits l0 : PyObj) (ls : List Stage)
    (hsub : limits.sub0 = some l0) (hseq : l0.isSeq = true)
    (h : limitsStages limits = some ls) :
    ∃ es rs, limits.elems = some es ∧
      es.mapM (fun l => (l.elems).map MyRange.mk) = some rs ∧
      ls = [Stage.rangeChecker (RangesArg.many rs)] := by
  have ht := sub0_some_truthy limits l0 hsub
  rw [limitsStages, if_pos ht, hsub] at h
  simp only [Option.bind_eq_bind, Option.some_bind, if_pos hseq] at h
  cases he : limits.elems with
  | none => rw [he] at h; simp at h
  | some es =>
    rw [he] at h
    simp only [Option.bind_eq_bind, Option.some_bind] at h
    cases hm : es.mapM (fun l => (l.elems).map MyRange.mk) with
    | none => rw [hm] at h; simp at h
    | some rs =>
      rw [hm] at h
      simp only [Option.bind_eq_bind, Option.some_bind, pure, Option.some.injEq] at h
      exact ⟨es, rs, rfl, hm, h.symm⟩

/-- Characterizing the limits block in the single-range case. -/
theorem limitsStages_one (limits l0 : PyObj) (ls : List Stage)
    (hsub : limits.sub0 = some l0) (hseq : l0.isSeq = false)
    (h : limitsStages limits = some ls) :
    ∃ es, limits.elems = some es ∧
      ls = [Stage.rangeChecker (RangesArg.one (MyRange.mk es))] := by
  have ht := sub0_some_truthy limits l0 hsub
  rw [limitsStages, if_pos ht, hsub] at h
  simp only [Option.bind_eq_bind, Option.some_bind,
    if_neg (hseq ▸ Bool.false_ne_true)] at h
  cases he : limits.elems with
  | none => rw [he] at h; simp at h
  | some es =>
    rw [he] at h
    simp only [Option.bind_eq_bind, Option.some_bind, pure, Option.some.injEq] at h
    exact ⟨es, rfl, h.symm⟩

/-- A truthy `limits` always contributes exactly one `range_checker` stage. -/
theorem limitsStages_truthy (limits : PyObj) (ls : List Stage)
    (ht : limits.truthy = true) (h : limitsStages limits = some ls) :
    ∃ arg, ls = [Stage.rangeChecker arg] := by
  have h' := h
  rw [limitsStages, if_pos ht] at h'
  cases hsub : limits.sub0 with
  | none => rw [hsub] at h'; simp at h'
  | some l0 =>
    by_cases hseq : l0.isSeq = true
    · obtain ⟨es, rs, -, -, hls⟩ := limitsStages_many limits l0 ls hsub hseq h
      exact ⟨RangesArg.many rs, hls⟩
    · obtain ⟨es, -, hls⟩ :=
        limitsStages_one limits l0 ls hsub (Bool.not_eq_true _ ▸ hseq) h
      exact ⟨RangesArg.one (MyRange.mk es), hls⟩

/-- C5: When the `limits` modifier is set, rebuild appends a range-validation
stage to the write pipeline only (the read pipeline gains no limits stage);
if `limits` is a sequence of ranges (its first element is itself a list or
tuple) the stage validates a candidate as soon as it satisfies any one range
in the sequence, and otherwise `limits` is treated as a single range. -/
theorem feat_limits_write_only (values units limits get_funcs set_funcs : PyObj)
    (gp sp : List Stage)
    (h : Feat.rebuildPipelines values units limits get_funcs set_funcs = some (gp, sp)) :
    (∀ st ∈ gp, st.isRangeChecker = false) ∧
    (limits.truthy = true → ∃ st, st ∈ sp ∧ st.isRangeChecker = true) ∧
    (∀ l0, limits.sub0 = some l0 → l0.isSeq = true →
      ∃ rs, limitsStages limits = some [Stage.rangeChecker (RangesArg.many rs)] ∧
        Stage.rangeChecker (RangesArg.many rs) ∈ sp ∧
        ∀ v, (RangesArg.many rs).accepts v = true ↔ ∃ r ∈ rs, r.contains v = true) ∧
    (∀ l0, limits.sub0 = some l0 → l0.isSeq = false →
      ∃ r, limitsStages limits = some [Stage.rangeChecker (RangesArg.one r)] ∧
        Stage.rangeChecker (RangesArg.one r) ∈ sp ∧
        ∀ v, (RangesArg.one r).accepts v = r.contains v) := by
  obtain ⟨ls, gfs, sfs, hls, hgf, hsf, hgp, hsp⟩ :=
    rebuildPipelines_some values units limits get_funcs set_funcs gp sp h
  have hmem : ∀ st ∈ ls, st ∈ sp := by
    intro st hst
    rw [hsp]
    simp only [List.mem_append]
    tauto
  refine ⟨?_, ?_, ?_, ?_⟩
  · intro st hst
    rw [hgp] at hst
    simp only [List.mem_append] at hst
    rcases hst with (h1 | h2) | h3
    · cases hu : units.truthy <;> rw [hu] at h1 <;> simp_all [Stage.isRangeChecker]
    · cases hv : values.truthy <;> rw [hv] at h2 <;> simp_all [Stage.isRangeChecker]
    · obtain ⟨f, hf⟩ := funcStages_all_proc get_funcs gfs hgf st h3
      rw [hf]; rfl
  · intro ht
    obtain ⟨arg, harg⟩ := limitsStages_truthy limits ls ht hls
    exact ⟨Stage.rangeChecker arg, hmem _ (harg ▸ List.mem_singleton.mpr rfl), rfl⟩
  · intro l0 hsub hseq
    obtain ⟨es, rs, he, hm, hlseq⟩ := limitsStages_many limits l0 ls hsub hseq hls
    refine ⟨rs, hlseq ▸ hls, hmem _ (hlseq ▸ List.mem_singleton.mpr rfl), ?_⟩
    intro v
    simp [RangesArg.accepts, List.any_eq_true]
  · intro l0 hsub hseq
    obtain ⟨es, he, hlseq⟩ := limitsStages_one limits l0 ls hsub hseq hls
    exact ⟨MyRange.mk es, hlseq ▸ hls, hmem _ (hlseq ▸ List.mem_singleton.mpr rfl),
      fun v => rfl⟩

/-- Witness for C5 at a sequence-of-ranges `limits` value. -/
theorem feat_limits_write_only_witness :
    Feat.rebuildPipelines PyObj.none PyObj.none
        (PyObj.tuple [PyObj.tuple [PyObj.int 0, PyObj.int 5],
                      PyObj.tuple [PyObj.int 10, PyObj.int 20]]) PyObj.none PyObj.none =
      some ([], [Stage.rangeChecker (RangesArg.many
        [⟨[PyObj.int 0, PyObj.int 5]⟩, ⟨[PyObj.int 10, PyObj.int 20]⟩])]) ∧
    ((∀ st ∈ ([] : List Stage), st.isRangeChecker = false) ∧
     ((PyObj.tuple [PyObj.tuple [PyObj.int 0, PyObj.int 5],
         PyObj.tuple [PyObj.int 10, PyObj.int 20]]).truthy = true →
       ∃ st, st ∈ [Stage.rangeChecker (RangesArg.many
         [⟨[PyObj.int 0, PyObj.int 5]⟩, ⟨[PyObj.int 10, PyObj.int 20]⟩])] ∧
         st.isRangeChecker = true) ∧
     (∀ l0, (PyObj.tuple [PyObj.tuple [PyObj.int 0, PyObj.int 5],
          PyObj.tuple [PyObj.int 10, PyObj.int 20]]).sub0 = some l0 → l0.isSeq = true →
       ∃ rs, limitsStages (PyObj.tuple [PyObj.tuple [PyObj.int 0, PyObj.int 5],
           PyObj.tuple [PyObj.int 10, PyObj.int 20]]) =
             some [Stage.rangeChecker (RangesArg.many rs)] ∧
         Stage.rangeChecker (RangesArg.many rs) ∈
           [Stage.rangeChecker (RangesArg.many
             [⟨[PyObj.int 0, PyObj.int 5]⟩, ⟨[PyObj.int 10, PyObj.int 20]⟩])] ∧
         ∀ v, (RangesArg.many rs).accepts v = true ↔ ∃ r ∈ rs, r.contains v = true) ∧
     (∀ l0, (PyObj.tuple [PyObj.tuple [PyObj.int 0, PyObj.int 5],
          PyObj.tuple [PyObj.int 10, PyObj.int 20]]).sub0 = some l0 → l0.isSeq = false →
       ∃ r, limitsStages (PyObj.tuple [PyObj.tuple [PyObj.int 0, PyObj.int 5],
           PyObj.tuple [PyObj.int 10, PyObj.int 20]]) =
             some [Stage.rangeChecker (RangesArg.one r)] ∧
         Stage.rangeChecker (RangesArg.one r) ∈
           [Stage.rangeChecker (RangesArg.many
             [⟨[PyObj.int 0, PyObj.int 5]⟩, ⟨[PyObj.int 10, PyObj.int 20]⟩])] ∧
         ∀ v, (RangesArg.one r).accepts v = r.contains v)) :=
  ⟨by decide,
   feat_limits_write_only PyObj.none PyObj.none
     (PyObj.tuple [PyObj.tuple [PyObj.int 0, PyObj.int 5],
                   PyObj.tuple [PyObj.int 10, PyObj.int 20]]) PyObj.none PyObj.none
     [] [Stage.rangeChecker (RangesArg.many
       [⟨[PyObj.int 0, PyObj.int 5]⟩, ⟨[PyObj.int 10, PyObj.int 20]⟩])] (by decide)⟩

theorem ScopedStore.iset_some_instVal_self {α : Type} (s : ScopedStore α) (i : Nat) (v : α) :
    (s.iset (some i) v).instVal i = some v := by
  simp [ScopedStore.iset]

/-- A rebuild never changes the accessors or the configuration store. -/
theorem rebuild_config_unchanged (f f' : FeatState) (sc : Option Nat)
    (h : f.rebuild sc = some f') :
    f'.config = f.config ∧ f'.fget = f.fget ∧ f'.fset = f.fset := by
  rw [FeatState.rebuild] at h
  cases hp : Feat.rebuildPipelines ((f.config "values").iget sc) ((f.config "units").iget sc)
      ((f.config "limits").iget sc) ((f.config "get_funcs").iget sc)
      ((f.config "set_funcs").iget sc) with
  | none => rw [hp] at h; simp at h
  | some p =>
    rw [hp] at h
    simp only [Option.bind_eq_bind, Option.some_bind, pure, Option.some.injEq] at h
    subst h
    exact ⟨rfl, rfl, rfl⟩

/-- What a successful `FeatState.config_set` guarantees: the value is stored
at the written scope, no other key changes, the accessors are untouched, the
pipelines of the written scope are rebuilt from the updated configuration
(the key being a recognized modifier), and a write at an instance scope
leaves every class-level value untouched. -/
theorem config_set_spec (f : FeatState) (sc : Option Nat) (key : String) (v : PyObj)
    (f' : FeatState) (h : f.config_set sc key v = some f') :
    ((f'.config key).iget sc = v) ∧
    (∀ k, k ≠ key → f'.config k = f.config k) ∧
    (f'.fget = f.fget ∧ f'.fset = f.fset) ∧
    (key ∈ featModifierKeys →
      ∃ gp sp,
        Feat.rebuildPipelines ((f'.config "values").iget sc) ((f'.config "units").iget sc)
            ((f'.config "limits").iget sc) ((f'.config "get_funcs").iget sc)
            ((f'.config "set_funcs").iget sc) = some (gp, sp) ∧
        f'.post_get.iget sc = some gp.reverse ∧
        f'.pre_set.iget sc = some sp) ∧
    (∀ j, sc = some j →
      (f'.config key).instVal j = some v ∧
      (∀ k, (f'.config k).classVal = (f.config k).classVal) ∧
      f'.post_get.classVal = f.post_get.classVal ∧
      f'.pre_set.classVal = f.pre_set.classVal) := by
  rw [FeatState.config_set] at h
  set f1 : FeatState := { f with
    config := fun k => if k = key then (f.config k).iset sc v else f.config k } with hf1
  rw [FeatState.on_config_set] at h
  by_cases hk : key ∈ featModifierKeys
  · rw [if_pos hk] at h
    rw [FeatState.rebuild] at h
    cases hp : Feat.rebuildPipelines ((f1.config "values").iget sc)
        ((f1.config "units").iget sc) ((f1.config "limits").iget sc)
        ((f1.config "get_funcs").iget sc) ((f1.config "set_funcs").iget sc) with
    | none => rw [hp] at h; simp at h
    | some p =>
      rw [hp] at h
      simp only [Option.bind_eq_bind, Option.some_bind, pure, Option.some.injEq] at h
      subst h
      refine ⟨?_, ?_, ⟨rfl, rfl⟩, ?_, ?_⟩
      · show ((f1.config key).iget sc) = v
        rw [hf1]
        simp only [if_pos rfl]
        exact ScopedStore.iget_iset _ _ _
      · intro k hkne
        show f1.config k = f.config k
        rw [hf1]
        simp only [if_neg hkne]
      · intro _
        exact ⟨p.1, p.2, hp, ScopedStore.iget_iset _ _ _, ScopedStore.iget_iset _ _ _⟩
      · intro j hsc
        subst hsc
        refine ⟨?_, ?_, ?_, ?_⟩
        · show (f1.config key).instVal j = some v
          rw [hf1]; simp only [if_pos rfl]
          exact ScopedStore.iset_some_instVal_self _ _ _
        · intro k
          show (f1.config k).classVal = (f.config k).classVal
          rw [hf1]
          by_cases hkk : k = key
          · simp only [if_pos hkk, hkk]
            exact ScopedStore.iset_classVal_some _ _ _
          · simp only [if_neg hkk]
        · exact ScopedStore.iset_classVal_some _ _ _
        · exact ScopedStore.iset_classVal_some _ _ _
  · rw [if_neg hk] at h
    simp only [Option.some.injEq] at h
    subst h
    refine ⟨?_, ?_, ⟨rfl, rfl⟩, fun hc => absurd hc hk, ?_⟩
    · show ((f1.config key).iget sc) = v
      rw [hf1]
      simp only [if_pos rfl]
      exact ScopedStore.iget_iset _ _ _
    · intro k hkne
      show f1.config k = f.config k
      rw [hf1]
      simp only [if_neg hkne]
    · intro j hsc
      subst hsc
      refine ⟨?_, ?_, rfl, rfl⟩
      · show (f1.config key).instVal j = some v
        rw [hf1]; simp only [if_pos rfl]
        exact ScopedStore.iset_some_instVal_self _ _ _
      · intro k
        show (f1.config k).classVal = (f.config k).classVal
        rw [hf1]
        by_cases hkk : k = key
        · simp only [if_pos hkk, hkk]
          exact ScopedStore.iset_classVal_some _ _ _
        · simp only [if_neg hkk]

/-- C6: For every name and value, writing an attribute on an Instance Proxy
fails with `InvalidModifierError` when the name is not one of the recognized
Modifier Set keys (and no descriptor state is produced in that case), and
otherwise stores the value as that instance's override and triggers the
proxied descriptor's modifier-change handler with the owning instance as
scope — for `FeatProxy` this rebuilds the instance-scope pipelines while
leaving every class-level value untouched, and for `DictFeatProxy` it stores
the instance override on the shared template. -/
theorem proxy_setattr_gate (f : FeatState) (d : DictFeatState) (feats : Nat → FeatState)
    (i : Nat) (item : String) (value : PyObj) :
    (item ∉ featConfigKeys →
      featProxySetattr f i item value = Except.error ProxyErr.invalidModifier ∧
      dictFeatProxySetattr d feats i item value = Except.error ProxyErr.invalidModifier) ∧
    (item ∈ featConfigKeys →
      featProxySetattr f i item value = Except.ok (f.config_set (some i) item value) ∧
      dictFeatProxySetattr d feats i item value =
        Except.ok (d.config_set feats (some i) item value) ∧
      (∀ f', f.config_set (some i) item value = some f' →
        (f'.config item).instVal i = some value ∧
        (∀ k, (f'.config k).classVal = (f.config k).classVal) ∧
        f'.post_get.classVal = f.post_get.classVal ∧
        (∃ gp sp,
          Feat.rebuildPipelines ((f'.config "values").iget (some i))
              ((f'.config "units").iget (some i)) ((f'.config "limits").iget (some i))
              ((f'.config "get_funcs").iget (some i))
              ((f'.config "set_funcs").iget (some i)) = some (gp, sp) ∧
          f'.post_get.iget (some i) = some gp.reverse ∧
          f'.pre_set.iget (some i) = some sp)) ∧
      (∀ p, d.config_set feats (some i) item value = some p →
        (p.1.config item).instVal i = some value ∧
        (∀ k, (p.1.config k).classVal = (d.config k).classVal) ∧
        p.1.subproperties = d.subproperties ∧
        p.1.fget = d.fget ∧ p.1.fset = d.fset)) := by
  constructor
  · intro hout
    constructor
    · rw [featProxySetattr, if_pos hout]
    · rw [dictFeatProxySetattr, if_pos hout]
  · intro hin
    have hnn : ¬ item ∉ featConfigKeys := fun hc => hc hin
    refine ⟨by rw [featProxySetattr, if_neg hnn], by rw [dictFeatProxySetattr, if_neg hnn],
      ?_, ?_⟩
    · intro f' hset
      obtain ⟨_, _, _, hreb, hinst⟩ := config_set_spec f (some i) item value f' hset
      obtain ⟨hival, hcls, hpg, -⟩ := hinst i rfl
      obtain ⟨gp, sp, hp, hpost, hpre⟩ := hreb hin
      exact ⟨hival, hcls, hpg, gp, sp, hp, hpost, hpre⟩
    · intro p hset
      rw [DictFeatState.config_set] at hset
      cases hprop : (d.withConfig (some i) item value).on_config_set feats (some i)
          item value with
      | none => rw [hprop] at hset; simp at hset
      | some feats2 =>
        rw [hprop] at hset
        simp only [Option.some.injEq] at hset
        subst hset
        refine ⟨?_, ?_, rfl, rfl, rfl⟩
        · show (((d.withConfig (some i) item value).config item).instVal i) = some value
          rw [DictFeatState.withConfig]
          simp only [if_pos rfl]
          exact ScopedStore.iset_some_instVal_self _ _ _
        · intro k
          show (((d.withConfig (some i) item value).config k).classVal) =
            (d.config k).classVal
          rw [DictFeatState.withConfig]
          by_cases hkk : k = item
          · simp only [if_pos hkk, hkk]
            exact ScopedStore.iset_classVal_some _ _ _
          · simp only [if_neg hkk]

/-- C7: For every name, reading an attribute on an Instance Proxy returns the
instance-scoped modifier value (falling back to the class-level default when
no instance override exists) when the name is a recognized Modifier Set key;
otherwise, when the proxied descriptor exposes the name, returns that member,
partially applying it with the owning instance as first argument when it is
callable; otherwise fails with `AttributeNotFoundError`.  Both proxy variants
dispatch identically. -/
theorem proxy_getattr_dispatch (f : FeatState) (d : DictFeatState)
    (fmem dmem : String → Option PyObj) (i : Nat) (item : String) :
    (item ∈ featConfigKeys →
      featProxyGetattr f fmem i item = Except.ok ((f.config item).iget (some i)) ∧
      dictFeatProxyGetattr d dmem i item = Except.ok ((d.config item).iget (some i)) ∧
      ((f.config item).instVal i = Option.none →
        featProxyGetattr f fmem i item = Except.ok ((f.config item).classVal)) ∧
      (∀ v, (f.config item).instVal i = some v →
        featProxyGetattr f fmem i item = Except.ok v)) ∧
    (item ∉ featConfigKeys →
      (∀ out, fmem item = some out →
        (out.callable = true → featProxyGetattr f fmem i item =
           Except.ok (PyObj.bindArg out (PyObj.instanceRef i))) ∧
        (out.callable = false → featProxyGetattr f fmem i item = Except.ok out)) ∧
      (fmem item = Option.none →
        featProxyGetattr f fmem i item = Except.error ProxyErr.attributeNotFound) ∧
      (∀ out, dmem item = some out →
        (out.callable = true → dictFeatProxyGetattr d dmem i item =
           Except.ok (PyObj.bindArg out (PyObj.instanceRef i))) ∧
        (out.callable = false → dictFeatProxyGetattr d dmem i item = Except.ok out)) ∧
      (dmem item = Option.none →
        dictFeatProxyGetattr d dmem i item = Except.error ProxyErr.attributeNotFound)) := by
  constructor
  · intro hin
    refine ⟨by rw [featProxyGetattr, if_pos hin]; rfl,
            by rw [dictFeatProxyGetattr, if_pos hin]; rfl, ?_, ?_⟩
    · intro hnone
      rw [featProxyGetattr, if_pos hin]
      show Except.ok ((f.config item).iget (some i)) = _
      rw [ScopedStore.iget, hnone]
      rfl
    · intro v hv
      rw [featProxyGetattr, if_pos hin]
      show Except.ok ((f.config item).iget (some i)) = _
      rw [ScopedStore.iget, hv]
      rfl
  · intro hout
    refine ⟨?_, ?_, ?_, ?_⟩
    · intro out hm
      rw [featProxyGetattr, if_neg hout, hm]
      constructor
      · intro hc; dsimp only; rw [if_pos hc]
      · intro hc; dsimp only; rw [if_neg (by simp [hc])]
    · intro hm
      rw [featProxyGetattr, if_neg hout, hm]
    · intro out hm
      rw [dictFeatProxyGetattr, if_neg hout, hm]
      constructor
      · intro hc; dsimp only; rw [if_pos hc]
      · intro hc; dsimp only; rw [if_neg (by simp [hc])]
    · intro hm
      rw [dictFeatProxyGetattr, if_neg hout, hm]

theorem processedP_of_config_set (key : String) (v : PyObj) (f0 f1 : FeatState)
    (h : f0.config_set Option.none key v = some f1) : ProcessedP key v f0 f1 := by
  obtain ⟨h1, h2, ⟨h3, h4⟩, h5, -⟩ := config_set_spec f0 Option.none key v f1 h
  exact ⟨h1, h2, h3, h4, h5⟩

theorem processedP_trans (key : String) (v : PyObj) (f0 f1 f2 : FeatState)
    (h01 : ProcessedP key v f0 f1) (h12 : ProcessedP key v f1 f2) :
    ProcessedP key v f0 f2 := by
  obtain ⟨a1, a2, a3, a4, a5⟩ := h01
  obtain ⟨b1, b2, b3, b4, b5⟩ := h12
  exact ⟨b1, fun k hk => (b2 k hk).trans (a2 k hk), b3.trans a3, b4.trans a4, b5⟩

/-- The invariant established by the propagation loop of
`DictFeat.on_config_set`: untouched heap ids are unchanged; every id that
appears in the sub-descriptor map has been processed. -/
theorem propagateToSubs_spec (subs : List ((Option Nat × PyObj) × Nat)) (key : String)
    (v : PyObj) (feats feats' : Nat → FeatState)
    (h : propagateToSubs subs key v feats = some feats') :
    (∀ fid, fid ∉ subs.map (fun e => e.2) → feats' fid = feats fid) ∧
    (∀ fid, fid ∈ subs.map (fun e => e.2) → ProcessedP key v (feats fid) (feats' fid)) := by
  induction subs generalizing feats with
  | nil =>
    rw [propagateToSubs] at h
    simp only [Option.some.injEq] at h
    subst h
    exact ⟨fun _ _ => rfl, by simp⟩
  | cons e rest ih =>
    rw [propagateToSubs] at h
    cases hcs : (feats e.2).config_set Option.none key v with
    | none => rw [hcs] at h; cases h
    | some f1 =>
      rw [hcs] at h
      obtain ⟨ih1, ih2⟩ := ih (Function.update feats e.2 f1) h
      have hbase : ProcessedP key v (feats e.2) f1 :=
        processedP_of_config_set key v (feats e.2) f1 hcs
      constructor
      · intro fid hfid
        simp only [List.map_cons, List.mem_cons, not_or] at hfid
        obtain ⟨hne, hrest⟩ := hfid
        rw [ih1 fid hrest, Function.update_noteq hne]
      · intro fid hfid
        simp only [List.map_cons, List.mem_cons] at hfid
        by_cases hmem : fid ∈ rest.map (fun e => e.2)
        · have hrec := ih2 fid hmem
          by_cases heq : fid = e.2
          · subst heq
            rw [Function.update_same] at hrec
            exact processedP_trans key v (feats e.2) f1 (feats' e.2) hbase hrec
          · rw [Function.update_noteq heq] at hrec
            exact hrec
        · have heq : fid = e.2 := by
            rcases hfid with h' | h'
            · exact h'
            · exact absurd h' hmem
          subst heq
          rw [ih1 e.2 hmem, Function.update_same]
          exact hbase

/-- C10: For every recognized modifier key, `DictFeat`'s modifier-change
handler propagates the new value by plain attribute assignment to every
entry of its materialized sub-descriptor map, without passing along the
scope on which the change was made — the loop's result does not depend on
the scope argument, and every sub-descriptor, regardless of which owning
instance it belongs to, receives the same value at its class-level scope. -/
theorem dictfeat_propagation_ignores_scope (d : DictFeatState) (feats : Nat → FeatState)
    (sc1 sc2 : Option Nat) (key : String) (v : PyObj) (hk : key ∈ featModifierKeys) :
    d.on_config_set feats sc1 key v = d.on_config_set feats sc2 key v ∧
    (∀ feats', d.on_config_set feats sc1 key v = some feats' →
      ∀ e ∈ d.subproperties, ((feats' e.2).config key).classVal = v) := by
  refine ⟨rfl, ?_⟩
  intro feats' h e he
  rw [DictFeatState.on_config_set, if_pos hk] at h
  obtain ⟨-, h2⟩ := propagateToSubs_spec d.subproperties key v feats feats' h
  exact (h2 e.2 (List.mem_map_of_mem _ he)).1

/-- Witness for C10 at `dfSample`: setting `units` at instance 0's scope
gives the same heap as setting it at instance 1's scope, and both
sub-descriptors receive the value. -/
theorem dictfeat_propagation_ignores_scope_witness :
    "units" ∈ featModifierKeys ∧
    (dfSample.on_config_set featsSample (some 0) "units" (PyObj.str "mV") =
       dfSample.on_config_set featsSample (some 1) "units" (PyObj.str "mV") ∧
     (∀ feats', dfSample.on_config_set featsSample (some 0) "units" (PyObj.str "mV") =
         some feats' →
       ∀ e ∈ dfSample.subproperties,
         ((feats' e.2).config "units").classVal = PyObj.str "mV")) :=
  ⟨by decide,
   dictfeat_propagation_ignores_scope dfSample featsSample (some 0) (some 1) "units"
     (PyObj.str "mV") (by decide)⟩

/-- C3 counterexample: on `dfSample`, setting the `units` modifier at the
scope of instance 0 also mutates the materialized sub-descriptor that
belongs to instance 1 (heap id 1, registered under scope `some 1`), whose
`units` was previously unset — contradicting "sub-descriptors belonging to
other scopes are not affected". -/
theorem dictfeat_scope_isolation_counterexample :
    ((featsSample 1).config "units").classVal = PyObj.none ∧
    (dfSample.subproperties.lookup (some 1, PyObj.int 1) = some 1) ∧
    (dfSample.config_set featsSample (some 0) "units" (PyObj.str "mV")).map
        (fun p => ((p.2 1).config "units").classVal) = some (PyObj.str "mV") := by
  decide

/-- C3 (amended): When one of the five recognized modifier keys is set on a
`DictFeat` at some scope, the shared template is updated at that scope, and
the change propagates to **every** already-materialized sub-descriptor —
regardless of the scope the sub-descriptor belongs to — each receiving the
new value at its own class-level scope and rebuilding its pipelines. -/
theorem dictfeat_modifier_propagates_to_all_subs (d : DictFeatState)
    (feats : Nat → FeatState) (sc : Option Nat) (key : String) (v : PyObj)
    (hk : key ∈ featModifierKeys) (p : DictFeatState × (Nat → FeatState))
    (h : d.config_set feats sc key v = some p) :
    (p.1.config key).iget sc = v ∧
    (∀ e ∈ d.subproperties, ProcessedP key v (feats e.2) (p.2 e.2)) ∧
    (∀ fid, fid ∉ d.subproperties.map (fun e => e.2) → p.2 fid = feats fid) := by
  rw [DictFeatState.config_set] at h
  cases hprop : (d.withConfig sc key v).on_config_set feats sc key v with
  | none => rw [hprop] at h; cases h
  | some feats2 =>
    rw [hprop] at h
    simp only [Option.some.injEq] at h
    subst h
    rw [DictFeatState.on_config_set, if_pos hk] at hprop
    obtain ⟨huntouched, hproc⟩ :=
      propagateToSubs_spec (d.withConfig sc key v).subproperties key v feats feats2 hprop
    refine ⟨?_, ?_, ?_⟩
    · show (((d.withConfig sc key v).config key).iget sc) = v
      rw [DictFeatState.withConfig]
      simp only [if_pos rfl]
      exact ScopedStore.iget_iset _ _ _
    · intro e he
      exact hproc e.2 (List.mem_map_of_mem _ he)
    · intro fid hfid
      exact huntouched fid hfid

/-- Witness for C3 (amended) at `dfSample`: both materialized
sub-descriptors are processed and untouched heap ids stay untouched. -/
theorem dictfeat_modifier_propagates_to_all_subs_witness :
    "units" ∈ featModifierKeys ∧
    ∃ p, dfSample.config_set featsSample (some 0) "units" (PyObj.str "mV") = some p ∧
      ((p.1.config "units").iget (some 0) = PyObj.str "mV" ∧
       (∀ e ∈ dfSample.subproperties,
         ProcessedP "units" (PyObj.str "mV") (featsSample e.2) (p.2 e.2)) ∧
       (∀ fid, fid ∉ dfSample.subproperties.map (fun e => e.2) →
         p.2 fid = featsSample fid)) := by
  refine ⟨by decide, ?_⟩
  cases hp : dfSample.config_set featsSample (some 0) "units" (PyObj.str "mV") with
  | none =>
    have hs : (dfSample.config_set featsSample (some 0) "units"
        (PyObj.str "mV")).isSome = true := by decide
    rw [hp] at hs
    cases hs
  | some p =>
    exact ⟨p, rfl,
      dictfeat_modifier_propagates_to_all_subs dfSample featsSample (some 0) "units"
        (PyObj.str "mV") (by decide) p hp⟩

theorem assocLookup_append_self (l : List (String × Nat)) (k : String) (v : Nat)
    (h : ∀ p ∈ l, p.1 ≠ k) : assocLookup (l ++ [(k, v)]) k = some v := by
  induction l with
  | nil => simp [assocLookup]
  | cons p rest ih =>
    rw [List.cons_append, assocLookup, if_neg (h p (List.mem_cons_self p rest))]
    exact ih fun q hq => h q (List.mem_cons_of_mem p hq)

theorem assocLookup_map_overwrite (l : List (String × Nat)) (k : String) (v : Nat)
    (h : l.any (fun p => p.1 = k) = true) :
    assocLookup (l.map fun p => if p.1 = k then (k, v) else p) k = some v := by
  induction l with
  | nil => cases h
  | cons p rest ih =>
    rw [List.map_cons]
    by_cases hp : p.1 = k
    · rw [if_pos hp, assocLookup, if_pos rfl]
    · rw [if_neg hp, assocLookup, if_neg hp]
      rw [List.any_cons] at h
      rcases Bool.or_eq_true_iff.mp h with h1 | h2
      · exact absurd (of_decide_eq_true h1) hp
      · exact ih h2

/-- Registering under a name makes the lookup of that name find the new id
(Python `d[name] = self`). -/
theorem assocLookup_assocSet_self (l : List (String × Nat)) (k : String) (v : Nat) :
    assocLookup (assocSet l k v) k = some v := by
  rw [assocSet]
  by_cases hany : l.any (fun p => p.1 = k) = true
  · rw [if_pos hany]
    exact assocLookup_map_overwrite l k v hany
  · rw [if_neg hany]
    refine assocLookup_append_self l k v ?_
    intro p hp hpk
    exact hany (List.any_eq_true.mpr ⟨p, hp, by simp [hpk]⟩)

/-- C4: When a descriptor is bound to an owning type whose inherited registry
is tagged with a different qualified name, binding (1) forks the registry
into a fresh one tagged with the owning type's qualified name, (2) registers
the descriptor under the attribute name there, and (3) performs a
class-level pipeline rebuild of the descriptor; the parent type's registry
and its registered descriptor are untouched, and remain untouched under any
further modification of the subtype's registry or of the subtype's
descriptor. -/
theorem feat_bind_forks_and_isolates (w : World) (pQual cQual : String)
    (pReg : Nat) (name : String) (fidP fidS : Nat)
    (hTag : (w.regs pReg).driverCls = some pQual)
    (hQual : cQual ≠ pQual)
    (hFid : fidS ≠ fidP)
    (hReg : pReg < w.nextReg)
    (hLook : assocLookup (w.regs pReg).entries name = some fidP)
    (hReb : ((w.feats fidS).rebuild Option.none).isSome = true) :
    ∃ w' rid,
      featSetName w cQual pReg name fidS = some (w', rid) ∧
      rid = w.nextReg ∧ rid ≠ pReg ∧
      (w'.regs rid).driverCls = some cQual ∧
      assocLookup (w'.regs rid).entries name = some fidS ∧
      (w.feats fidS).rebuild Option.none = some (w'.feats fidS) ∧
      w'.regs pReg = w.regs pReg ∧
      assocLookup (w'.regs pReg).entries name = some fidP ∧
      w'.feats fidP = w.feats fidP ∧
      (∀ (r : Registry) (g : FeatState),
        Function.update w'.regs rid r pReg = w.regs pReg ∧
        Function.update w'.feats fidS g fidP = w.feats fidP) := by
  obtain ⟨f, hf⟩ := Option.isSome_iff_exists.mp hReb
  have hPne : pReg ≠ w.nextReg := Nat.ne_of_lt hReg
  have hcond : (w.regs pReg).driverCls ≠ some cQual := by
    rw [hTag]
    intro hc
    exact hQual ((Option.some.injEq _ _).mp hc).symm
  rw [featSetName]
  simp only [if_pos hcond, Function.update_same, hf]
  refine ⟨_, w.nextReg, rfl, rfl, fun hc => hPne hc.symm, ?_, ?_, ?_, ?_, ?_, ?_, ?_⟩
  · dsimp only
    rw [Function.update_same]
  · dsimp only
    rw [Function.update_same]
    exact assocLookup_assocSet_self _ _ _
  · dsimp only
    rw [Function.update_same]
  · dsimp only
    rw [Function.update_noteq hPne, Function.update_noteq hPne]
  · dsimp only
    rw [Function.update_noteq hPne, Function.update_noteq hPne]
    exact hLook
  · dsimp only
    rw [Function.update_noteq (Ne.symm hFid)]
  · intro r g
    constructor
    · dsimp only
      rw [Function.update_noteq hPne, Function.update_noteq hPne,
        Function.update_noteq hPne]
    · dsimp only
      rw [Function.update_noteq (Ne.symm hFid), Function.update_noteq (Ne.symm hFid)]

/-- Witness for C4: a subtype `"Child"` overriding `"x"` with descriptor 1
forks registry 0 of `sampleWorld`. -/
theorem feat_bind_forks_and_isolates_witness :
    ((sampleWorld.regs 0).driverCls = some "Parent" ∧ "Child" ≠ "Parent" ∧
     (1 : Nat) ≠ 0 ∧ 0 < sampleWorld.nextReg ∧
     assocLookup (sampleWorld.regs 0).entries "x" = some 0 ∧
     ((sampleWorld.feats 1).rebuild Option.none).isSome = true) ∧
    (∃ w' rid,
      featSetName sampleWorld "Child" 0 "x" 1 = some (w', rid) ∧
      rid = sampleWorld.nextReg ∧ rid ≠ 0 ∧
      (w'.regs rid).driverCls = some "Child" ∧
      assocLookup (w'.regs rid).entries "x" = some 1 ∧
      (sampleWorld.feats 1).rebuild Option.none = some (w'.feats 1) ∧
      w'.regs 0 = sampleWorld.regs 0 ∧
      assocLookup (w'.regs 0).entries "x" = some 0 ∧
      w'.feats 0 = sampleWorld.feats 0 ∧
      (∀ (r : Registry) (g : FeatState),
        Function.update w'.regs rid r 0 = sampleWorld.regs 0 ∧
        Function.update w'.feats 1 g 0 = sampleWorld.feats 0)) :=
  ⟨⟨by decide, by decide, by decide, by decide, by decide, by decide⟩,
   feat_bind_forks_and_isolates sampleWorld "Parent" "Child" 0 "x" 0 1
     (by decide) (by decide) (by decide) (by decide) (by decide) (by decide)⟩

/-- A successful rebuild stores a pipeline for the rebuilt scope. -/
theorem rebuild_some_pipelines (f f' : FeatState) (sc : Option Nat)
    (h : f.rebuild sc = some f') :
    (f'.post_get.iget sc).isSome = true ∧ (f'.pre_set.iget sc).isSome = true := by
  rw [FeatState.rebuild] at h
  cases hp : Feat.rebuildPipelines ((f.config "values").iget sc) ((f.config "units").iget sc)
      ((f.config "limits").iget sc) ((f.config "get_funcs").iget sc)
      ((f.config "set_funcs").iget sc) with
  | none => rw [hp] at h; simp at h
  | some p =>
    rw [hp] at h
    simp only [Option.bind_eq_bind, Option.some_bind, pure, Option.some.injEq] at h
    subst h
    rw [ScopedStore.iget_iset, ScopedStore.iget_iset]
    exact ⟨rfl, rfl⟩

/-- A materialized sub-descriptor always carries class-level pipelines. -/
theorem build_subproperty_pipelines (d : DictFeatState) (key fg fs : PyObj)
    (inst : Option Nat) (f : FeatState)
    (h : d.build_subproperty key fg fs inst = some f) :
    f.post_get.classVal.isSome = true ∧ f.pre_set.classVal.isSome = true := by
  rw [DictFeatState.build_subproperty, featInit] at h
  exact rebuild_some_pipelines _ f Option.none h

/-- C9: Binding a `DictFeat` to an owning type only forks/tags the class
registry and registers the descriptor; unlike `Feat`'s binding it performs
no initial pipeline rebuild — the `Feat` heap is untouched, every
`DictFeat` is untouched, and only the owner's registry changes.  (The
`DictFeatState` type itself has no pipeline storage.)  Pipelines come into
existence only on sub-descriptors when they are materialized. -/
theorem dictfeat_bind_no_rebuild (w : World) (q : String) (rid0 : Nat) (name : String)
    (selfId : Nat) :
    ∃ w' rid,
      dictFeatSetName w q rid0 name selfId = (w', rid) ∧
      w'.feats = w.feats ∧
      w'.dictfeats = w.dictfeats ∧
      (w'.regs rid).driverCls = some q ∧
      assocLookup (w'.regs rid).entries name = some selfId ∧
      (∀ j, j ≠ rid → j ≠ rid0 → w'.regs j = w.regs j) ∧
      (∀ (d : DictFeatState) (key fg fs : PyObj) (inst : Option Nat) (f : FeatState),
        d.build_subproperty key fg fs inst = some f →
        f.post_get.classVal.isSome = true ∧ f.pre_set.classVal.isSome = true) := by
  by_cases hfork : (w.regs rid0).driverCls ≠ some q
  · rw [dictFeatSetName]
    simp only [if_pos hfork, Function.update_same]
    refine ⟨_, w.nextReg, rfl, rfl, rfl, ?_, ?_, ?_, ?_⟩
    · dsimp only
      rw [Function.update_same]
    · dsimp only
      rw [Function.update_same]
      exact assocLookup_assocSet_self _ _ _
    · intro j hj _
      dsimp only
      rw [Function.update_noteq hj, Function.update_noteq hj]
    · exact build_subproperty_pipelines
  · have htag : (w.regs rid0).driverCls = some q := not_not.mp hfork
    rw [dictFeatSetName]
    simp only [if_neg hfork]
    refine ⟨_, rid0, rfl, rfl, rfl, ?_, ?_, ?_, ?_⟩
    · dsimp only
      rw [Function.update_same]
      exact htag
    · dsimp only
      rw [Function.update_same]
      exact assocLookup_assocSet_self _ _ _
    · intro j _ hj
      dsimp only
      rw [Function.update_noteq hj]
    · exact build_subproperty_pipelines

theorem lookupSub_append_self (l : List ((Option Nat × PyObj) × Nat))
    (inst : Option Nat) (key : PyObj) (v : Nat)
    (h : lookupSub l inst key = Option.none) :
    lookupSub (l ++ [((inst, key), v)]) inst key = some v := by
  induction l with
  | nil => simp [lookupSub]
  | cons e rest ih =>
    rw [lookupSub] at h
    by_cases he : e.1 = (inst, key)
    · rw [if_pos he] at h; cases h
    · rw [if_neg he] at h
      rw [List.cons_append, lookupSub, if_neg he]
      exact ih h

/-- C8: Materializing a sub-descriptor of an Indexed Attribute Descriptor on
a cache miss produces a fresh Attribute Descriptor whose raw getter and
setter are the per-key accessors (the indexed accessors with the key bound
as first argument) and whose five modifiers equal the indexed descriptor's
current Modifier Set for the requested scope at the moment of creation (no
instance overrides); the new sub-descriptor is cached under
`(instance, key)` and no other heap entry changes. -/
theorem dictfeat_subproperty_materialization (d : DictFeatState)
    (feats : Nat → FeatState) (nextFeat : Nat) (inst : Option Nat) (key : PyObj)
    (hmiss : lookupSub d.subproperties inst key = Option.none)
    (hsucc : (d.subproperty feats nextFeat inst key).isSome = true) :
    ∃ d' feats' next' fid,
      d.subproperty feats nextFeat inst key = some (d', feats', next', fid) ∧
      fid = nextFeat ∧ next' = nextFeat + 1 ∧
      (feats' fid).fget = PyObj.bindArg d.fget key ∧
      (feats' fid).fset = PyObj.bindArg d.fset key ∧
      (∀ k, k ∈ featModifierKeys →
        ((feats' fid).config k).classVal = (d.config k).iget inst) ∧
      (∀ k j, ((feats' fid).config k).instVal j = Option.none) ∧
      d'.subproperties = d.subproperties ++ [((inst, key), nextFeat)] ∧
      lookupSub d'.subproperties inst key = some fid ∧
      d'.config = d.config ∧ d'.fget = d.fget ∧ d'.fset = d.fset ∧
      (∀ j, j ≠ fid → feats' j = feats j) := by
  cases hb : d.build_subproperty key (PyObj.bindArg d.fget key) (PyObj.bindArg d.fset key)
      inst with
  | none =>
    rw [DictFeatState.subproperty, hmiss, hb] at hsucc
    cases hsucc
  | some f =>
    have heq : d.subproperty feats nextFeat inst key =
        some ({ d with subproperties := d.subproperties ++ [((inst, key), nextFeat)] },
              Function.update feats nextFeat f, nextFeat + 1, nextFeat) := by
      rw [DictFeatState.subproperty, hmiss, hb]
    have hb2 : FeatState.rebuild
        { FeatState.fresh (PyObj.bindArg d.fget key) (PyObj.bindArg d.fset key) with
          config := fun k =>
            ⟨if k ∈ featModifierKeys then (d.config k).iget inst else PyObj.none,
             fun _ => Option.none⟩ } Option.none = some f := hb
    obtain ⟨hc0, hg0, hs0⟩ := rebuild_config_unchanged _ f Option.none hb2
    have hc : f.config = fun k =>
        ⟨if k ∈ featModifierKeys then (d.config k).iget inst else PyObj.none,
         fun _ => Option.none⟩ := hc0
    have hg : f.fget = PyObj.bindArg d.fget key := hg0
    have hs : f.fset = PyObj.bindArg d.fset key := hs0
    refine ⟨_, _, _, nextFeat, heq, rfl, rfl, ?_, ?_, ?_, ?_, rfl, ?_, rfl, rfl, rfl, ?_⟩
    · rw [Function.update_same]
      exact hg
    · rw [Function.update_same]
      exact hs
    · intro k hk
      rw [Function.update_same, hc]
      simp only [if_pos hk]
    · intro k j
      rw [Function.update_same, hc]
    · exact lookupSub_append_self d.subproperties inst key nextFeat hmiss
    · intro j hj
      rw [Function.update_noteq hj]

/-- Witness for C8: materializing key `5` for instance `2` on `dfSample`. -/
theorem dictfeat_subproperty_materialization_witness :
    (lookupSub dfSample.subproperties (some 2) (PyObj.int 5) = Option.none ∧
     (dfSample.subproperty featsSample 7 (some 2) (PyObj.int 5)).isSome = true) ∧
    (∃ d' feats' next' fid,
      dfSample.subproperty featsSample 7 (some 2) (PyObj.int 5) =
        some (d', feats', next', fid) ∧
      fid = 7 ∧ next' = 7 + 1 ∧
      (feats' fid).fget = PyObj.bindArg dfSample.fget (PyObj.int 5) ∧
      (feats' fid).fset = PyObj.bindArg dfSample.fset (PyObj.int 5) ∧
      (∀ k, k ∈ featModifierKeys →
        ((feats' fid).config k).classVal = (dfSample.config k).iget (some 2)) ∧
      (∀ k j, ((feats' fid).config k).instVal j = Option.none) ∧
      d'.subproperties = dfSample.subproperties ++ [((some 2, PyObj.int 5), 7)] ∧
      lookupSub d'.subproperties (some 2) (PyObj.int 5) = some fid ∧
      d'.config = dfSample.config ∧ d'.fget = dfSample.fget ∧ d'.fset = dfSample.fset ∧
      (∀ j, j ≠ fid → feats' j = featsSample j)) :=
  ⟨⟨by decide, by decide⟩,
   dictfeat_subproperty_materialization dfSample featsSample 7 (some 2) (PyObj.int 5)
     (by decide) (by decide)⟩
